import Mathlib

/-
Verification development for the doorstop-ewan publishers
(doorstop/core/publishers/latex.py and doorstop/core/publishers/markdown.py).

Lines of text are embedded as `List Char`.  Python regular-expression
operations are embedded as explicit recursive functions on character lists;
fallible code is embedded with `Except`.
-/

/-- The backtick character (used by the Markdown code-fence syntax). -/
def tick : Char := Char.ofNat 96

/-- Python regex `\s` on the ASCII range: the whitespace characters. -/
def pySpace (c : Char) : Bool :=
  c == ' ' || c == '\t' || c == '\n' || c == '\r' || c == Char.ofNat 11 || c == Char.ofNat 12

/-- Embeds a non-empty result of `re.findall(pat, line)` for a literal
pattern `pat`: whether `pat` occurs as a contiguous substring. -/
def containsSub (pat : List Char) : List Char → Bool
  | [] => pat.isEmpty
  | c :: t => pat.isPrefixOf (c :: t) || containsSub pat t

/-- The suffix of the line after the first occurrence of the literal
pattern `pat`, or `none` when `pat` does not occur. -/
def afterFirst (pat : List Char) : List Char → Option (List Char)
  | [] => if pat.isEmpty then some [] else none
  | c :: t =>
    if pat.isPrefixOf (c :: t) then some ((c :: t).drop pat.length)
    else afterFirst pat t

/-- Fuel-driven worker for `replaceSub` (left-to-right, non-overlapping
replacement of a literal pattern, as Python `re.sub` on a literal). -/
def replaceSubFuel (pat rep : List Char) : Nat → List Char → List Char
  | 0, l => l
  | _, [] => []
  | fuel + 1, c :: t =>
    if pat ≠ [] ∧ pat.isPrefixOf (c :: t) then
      rep ++ replaceSubFuel pat rep fuel ((c :: t).drop pat.length)
    else c :: replaceSubFuel pat rep fuel t

/-- Python `re.sub(pat, rep, line)` for a literal pattern `pat`. -/
def replaceSub (pat rep l : List Char) : List Char := replaceSubFuel pat rep l.length l

/-- Splits the tail after an opening backtick for the lazy pattern
in `re.sub("`(.+?)`", ...)`: the shortest non-empty content followed by a
closing backtick, together with the rest of the line after that backtick. -/
def tickSplit : List Char → Option (List Char × List Char)
  | [] => none
  | c :: t =>
    match t.dropWhile (fun d => !(d == tick)) with
    | [] => none
    | _ :: u => some (c :: t.takeWhile (fun d => !(d == tick)), u)

/-- Fuel-driven worker for `subInline`:
Python `re.sub("`(.+?)`", "\\\\lstinline`\\1`", line)`. -/
def subInlineFuel : Nat → List Char → List Char
  | 0, l => l
  | _, [] => []
  | fuel + 1, c :: t =>
    if c == tick then
      match tickSplit t with
      | some (content, after) =>
        "\\lstinline".data ++ tick :: content ++ tick :: subInlineFuel fuel after
      | none => c :: subInlineFuel fuel t
    else c :: subInlineFuel fuel t

/-- The inline-code rewrite `re.sub("`(.+?)`", "\\\\lstinline`\\1`", line)`
(latex.py line 496). -/
def subInline (l : List Char) : List Char := subInlineFuel l.length l

/-- Prepends a character to the first segment of a split result. -/
def consCurrent (c : Char) : List (List Char) → List (List Char)
  | [] => [[c]]
  | s :: rest => (c :: s) :: rest

/-- Fuel-driven worker for `splitDollars`. -/
def splitDollarsFuel : Nat → List Char → List (List Char)
  | 0, l => [l]
  | _, [] => [[]]
  | fuel + 1, c :: t =>
    if c = '$' ∧ t.head? = some '$' then [] :: splitDollarsFuel fuel t.tail
    else consCurrent c (splitDollarsFuel fuel t)

/-- Python `re.split("\\$\\$", line)` (latex.py line 509): split on each
non-overlapping, leftmost occurrence of a double dollar sign. -/
def splitDollars (l : List Char) : List (List Char) := splitDollarsFuel l.length l

/-- Wraps a character list in braces (LaTeX argument syntax). -/
def br (l : List Char) : List Char := '{' :: l ++ ['}']

/-- The literal pattern of an escaped backtick, regex `\\`` . -/
def escTickPat : List Char := ['\\', tick]

/-- The temporary marker `##!!TEMPINLINE!!##` (latex.py lines 494-498). -/
def tempMarker : List Char := "##!!TEMPINLINE!!##".data

/-- The replacement that restores an escaped backtick,
Python replacement string `"\\\\`{}"`. -/
def tempBackRep : List Char := '\\' :: tick :: '{' :: ['}']

/-- The literal pattern `@enduml`. -/
def endumlPat : List Char := "@enduml".data

/-- The literal pattern of a triple backtick (a Markdown code fence). -/
def tripleTick : List Char := [tick, tick, tick]

/-- The hard line-break marker `\\` appended by the math span and the
paragraph lookahead (two backslash characters). -/
def hardBreak : List Char := ['\\', '\\']

/-- The line `\end{plantuml}`. -/
def endPlantumlLine : List Char := "\\end".data ++ br "plantuml".data

/-- The line `\begin{plantuml}{file}` (latex.py line 422). -/
def beginPlantumlLine (file : List Char) : List Char :=
  "\\begin".data ++ br "plantuml".data ++ br file

/-- The line `\end{lstlisting}`. -/
def endLstLine : List Char := "\\end".data ++ br "lstlisting".data

/-- The line `\begin{lstlisting}`. -/
def beginLstLine : List Char := "\\begin".data ++ br "lstlisting".data

/-- The line `\begin{lstlisting}[language=L]` (latex.py lines 471-475). -/
def beginLstLangLine (lang : List Char) : List Char :=
  beginLstLine ++ "[language=".data ++ lang ++ "]".data

/-- The forward-reference line `\hyperref[fig:plantN]{name}`
(latex.py lines 415-421). -/
def hyperrefLine (n : Nat) (name : List Char) : List Char :=
  "\\hyperref[fig:plant".data ++ (Nat.repr n).data ++ "]".data ++ br name

/-- The render-directive line `\process{file}{0.8\textwidth}{name}{count}`
emitted at a diagram close (latex.py lines 427-436). -/
def processLine (file name : List Char) (count : Nat) : List Char :=
  "\\process".data ++ br file ++ br ("0.8".data ++ "\\textwidth".data) ++
    br name ++ br (Nat.repr count).data

/-- The render-directive line `\process{file}{0.8\textwidth}{name}` emitted
by the end-of-stream force close (latex.py lines 611-617, no counter). -/
def processEofLine (file name : List Char) : List Char :=
  "\\process".data ++ br file ++ br ("0.8".data ++ "\\textwidth".data) ++ br name

/-- The two domain errors raised by `_format_latex_text`
(`DoorstopError` instances, latex.py lines 411-413 and 526-528). -/
inductive DoorstopError where
  /-- Message: `'title' is required for plantUML processing in LaTeX.` -/
  | missingPlantumlTitle : DoorstopError
  /-- Message: `Cannot handle multiple math environments on one row.` -/
  | multipleMathEnvironments : DoorstopError
deriving DecidableEq, Repr

/-- The attributes of `LaTeXPublisher` read by `_format_latex_text` and its
helpers; set once in `__init__` (latex.py lines 34-51) and never written by
the conversion methods. -/
structure LaTeXPublisher where
  END_LONGTABLE : List Char
  HLINE : List Char
  END_TABULAR : List Char
deriving DecidableEq, Repr

/-- The attribute values assigned in `LaTeXPublisher.__init__`. -/
def LaTeXPublisher.init : LaTeXPublisher :=
  { END_LONGTABLE := "\\end".data ++ br "longtable".data
    HLINE := "\\hline".data
    END_TABULAR := "\\end".data ++ br "tabular".data }

/-- The local loop state of one `_format_latex_text` call
(latex.py lines 385-396): the output block, the `environment_data`
dictionary entries, and the remaining local variables. -/
structure LoopState where
  block : List (List Char)
  table_found : Bool
  header_done : Bool
  code_found : Bool
  math_found : Bool
  plantuml_found : Bool
  plantuml_file : List Char
  plantuml_name : List Char
  plantuml_count : Nat
  end_pipes : Bool
deriving DecidableEq, Repr

/-- The fresh state created at the start of every `_format_latex_text` call
(latex.py lines 385-396). -/
def initState : LoopState :=
  { block := [], table_found := false, header_done := false
    code_found := false, math_found := false, plantuml_found := false
    plantuml_file := [], plantuml_name := [], plantuml_count := 0
    end_pipes := false }

/-- Python `re.findall("^`*plantuml\\s", line)` producing a match: zero or
more leading backticks, then `plantuml`, then a whitespace character. -/
def matchesPlantumlOpen (l : List Char) : Bool :=
  let r := l.dropWhile (fun c => c == tick)
  "plantuml".data.isPrefixOf r &&
    (match r.drop 8 with
     | c :: _ => pySpace c
     | [] => false)

/-- Python `re.search('title="(.*)"', line)`: the greedy group between the
first occurrence of `title="` and the last following quote, or `none`. -/
def extractTitle (l : List Char) : Option (List Char) :=
  match afterFirst "title=\"".data l with
  | none => none
  | some rest =>
    match rest.reverse.dropWhile (fun c => !(c == '"')) with
    | [] => none
    | _ :: u => some u.reverse

/-- Python `re.sub("\\s", "-", plantuml_name)` (latex.py line 414): every
whitespace character of the title becomes a hyphen. -/
def slugify (name : List Char) : List Char :=
  name.map (fun c => if pySpace c then '-' else c)

/-- Whether the line matches `r"!\[(.*)\]\((.*)\)"` (latex.py line 503):
`![`, then `](`, then a closing parenthesis. -/
def hasImage (l : List Char) : Bool :=
  match afterFirst "![".data l with
  | none => false
  | some r =>
    match afterFirst "](".data r with
    | none => false
    | some r2 => r2.any (fun c => c == ')')

/-- Modelled from the spec: `_typeset_latex_image`
(doorstop/core/publishers/_latex_functions.py) is not under src/.  Spec
section 4.4 lists an image rewrite as one pipeline stage; the Markdown
image `![alt](target)` is rewritten into an image-inclusion line.  The
model keeps the block unchanged and rewrites the line. -/
def typesetLatexImage (line : List Char) (block : List (List Char)) :
    List Char × List (List Char) :=
  match afterFirst "](".data line with
  | some r => ("\\includegraphics".data ++ br (r.takeWhile (fun c => !(c == ')'))), block)
  | none => (line, block)

/-- Whether the escaped line carries a Markdown list marker: `- ` or `* `
after indentation, or an ordered marker of a digit followed by a dot. -/
def isListMarkerLine (l : List Char) : Bool :=
  let s := l.dropWhile (fun c => c == ' ')
  ['-', ' '].isPrefixOf s || ['*', ' '].isPrefixOf s ||
    ((s.getD 0 ' ').isDigit && s.getD 1 ' ' == '.')

/-- Modelled from the spec: `BasePublisher.process_lists`
(doorstop/core/publishers/base.py) is not under src/.  Spec section 4.3:
given the current line and a look-ahead at the next line it detects
Markdown list markers, returns a flag telling the driver to suppress the
hard line-break, an environment-boundary line to prepend (empty when
none), and the rewritten content line.  Nesting-depth bookkeeping is not
modelled; no claim exercises it. -/
def process_lists (line _next_line : List Char) : Bool × List Char × List Char :=
  if isListMarkerLine line then
    (true, [], "\\item ".data ++ (line.dropWhile (fun c => c == ' ')).drop 2)
  else (false, [], line)

/-- Modelled from the spec: `_fix_table_line`
(doorstop/core/publishers/_latex_functions.py) is not under src/.  Spec
section 4.2: a pipe row is reformatted into a LaTeX table row with
leading/trailing pipe normalization; cells are joined with the column
separator and the row ends with the row-break marker. -/
def fix_table_line (line : List Char) (end_pipes : Bool) : List Char :=
  let l1 :=
    if end_pipes then
      ((((line.dropWhile (fun c => !(c == '|'))).drop 1).reverse.dropWhile
          (fun c => !(c == '|'))).drop 1).reverse
    else line
  l1.map (fun c => if c == '|' then '&' else c) ++ hardBreak

/-- The table-open line `\begin{longtable}{|l|...|}` for `cols` columns. -/
def beginLongtableLine (cols : Nat) : List Char :=
  "\\begin".data ++ br "longtable".data ++
    br ((List.replicate cols ('|' :: ['l'])).flatten ++ ['|'])

/-- Modelled from the spec: `_check_for_new_table`
(doorstop/core/publishers/_latex_functions.py) is not under src/.  Spec
section 4.2: a line containing at least one pipe while outside a table
begins the table environment, computing the column layout from the header
row, appending the environment-open line to the block, and rewriting the
line into the header row; the following line is consumed as the separator
by the caller.  Returns (table_found, header_done, line, end_pipes, block)
as the source call site does (the Python helper also receives the regex
match, the text and the index; the model does not need them). -/
def check_for_new_table (line : List Char) (block : List (List Char))
    (header_done _end_pipes : Bool) :
    Bool × Bool × List Char × Bool × List (List Char) :=
  let ep := ((line.dropWhile (fun c => c == ' ')).head? == some '|') &&
      ((line.reverse.dropWhile (fun c => c == ' ')).head? == some '|')
  let pipes := (line.filter (fun c => c == '|')).length
  let cols := if ep then pipes - 1 else pipes + 1
  (true, header_done, fix_table_line line ep, ep, block ++ [beginLongtableLine cols])

/-- `LaTeXPublisher._typeset_latex_table` (latex.py lines 338-353): while no
table is open delegate to the new-table check; otherwise render the
separator line as `\hline` once, then fix body rows. -/
def typeset_latex_table (pub : LaTeXPublisher) (line : List Char)
    (block : List (List Char)) (table_found header_done end_pipes : Bool) :
    Bool × Bool × List Char × Bool × List (List Char) :=
  if !table_found then check_for_new_table line block header_done end_pipes
  else if !header_done then (true, true, pub.HLINE, end_pipes, block)
  else (true, header_done, fix_table_line line end_pipes, end_pipes, block)

/-- `LaTeXPublisher._check_for_eof` (latex.py lines 596-619): on the last
line (`index == len(text) - 1`), append the close of every still-open code,
diagram and table environment to the block. -/
def check_for_eof (pub : LaTeXPublisher) (text : List (List Char)) (i : Nat)
    (s : LoopState) : LoopState :=
  if i + 1 = text.length then
    let b1 := if s.code_found then s.block ++ [endLstLine] else s.block
    let b2 :=
      if s.plantuml_found then
        b1 ++ [endPlantumlLine, processEofLine s.plantuml_file s.plantuml_name]
      else b1
    let b3 := if s.table_found then b2 ++ [pub.END_LONGTABLE] else b2
    { s with block := b3 }
  else s

/-- The plantuml-open stage (latex.py lines 405-423): a line matching the
opening marker increments the counter, requires a title (else the
missing-title error), appends the forward-reference line, and rewrites the
line into the begin-environment line. -/
def plantumlOpenStage (s : LoopState) (line : List Char) :
    Except DoorstopError (LoopState × List Char) :=
  if matchesPlantumlOpen line then
    match extractTitle line with
    | none => .error .missingPlantumlTitle
    | some name =>
      let count := s.plantuml_count + 1
      let file := slugify name
      .ok ({ s with
              plantuml_count := count, plantuml_name := name
              plantuml_file := file, plantuml_found := true
              block := s.block ++ [hyperrefLine count name] },
           beginPlantumlLine file)
  else .ok (s, line)

/-- The `@enduml` stage (latex.py lines 424-437): a line containing the
closing marker is appended together with the end-environment line, and the
line becomes the render directive. -/
def endumlStage (s : LoopState) (line : List Char) : LoopState × List Char :=
  if containsSub endumlPat line then
    ({ s with
        plantuml_found := false
        block := s.block ++ [line, endPlantumlLine] },
     processLine s.plantuml_file s.plantuml_name s.plantuml_count)
  else (s, line)

/-- The code-fence toggle (latex.py lines 464-478): close an open span with
the end-verbatim line, or open one (honouring a language tag). -/
def codeToggle (s : LoopState) (line : List Char) : LoopState × List Char :=
  if s.code_found then ({ s with code_found := false }, endLstLine)
  else
    ({ s with code_found := true },
     match afterFirst tripleTick line with
     | some lang => if lang.isEmpty then beginLstLine else beginLstLangLine lang
     | none => beginLstLine)

/-- The three inline-code substitutions (latex.py lines 492-498). -/
def inlineCodeSubs (line : List Char) : List Char :=
  replaceSub tempMarker tempBackRep (subInline (replaceSub escTickPat tempMarker line))

/-- Modelled from the spec: `_latex_convert`
(doorstop/core/publishers/_latex_functions.py) is not under src/.  Spec
section 4.1: format-specific escaping of reserved characters (for LaTeX
`_` and `^`) and rewriting of the constrained Markdown link syntax
`[label](target)` into the hyperlink macro. -/
def latexEscapeChar (c : Char) : List Char :=
  if c == '_' then ['\\', '_'] else if c == '^' then ['\\', '^'] else [c]

/-- Modelled from the spec: the link rewrite inside `_latex_convert`
(see `latex_convert`): the first `[label](target)` becomes
`\href{target}{label}`. -/
def rewriteLink (l : List Char) : List Char :=
  let before := l.takeWhile (fun c => !(c == '['))
  match afterFirst ['['] l with
  | none => l
  | some r1 =>
    match afterFirst "](".data r1 with
    | none => l
    | some r2 =>
      before ++ "\\href".data ++ br (r2.takeWhile (fun c => !(c == ')'))) ++
        br (r1.takeWhile (fun c => !(c == ']'))) ++
        (r2.dropWhile (fun c => !(c == ')'))).drop 1
  
/-- Modelled from the spec: `_latex_convert`
(doorstop/core/publishers/_latex_functions.py) is not under src/.  See
`latexEscapeChar` and `rewriteLink`. -/
def latex_convert (l : List Char) : List Char :=
  let l1 := if containsSub "](".data l then rewriteLink l else l
  l1.flatMap latexEscapeChar

/-- The tail of the per-line pipeline once the diagram and code spans have
not consumed the line (latex.py lines 492-593): inline code, images, math,
lists, tables, the paragraph lookahead, the append, and the end-of-stream
check.  The two dead stores `no_paragraph = True` (lines 404, 457) are
omitted: the only read of `no_paragraph` (line 577) is always preceded by
the assignment from `process_lists` (line 544). -/
def restPipeline (pub : LaTeXPublisher) (text : List (List Char)) (i : Nat)
    (s : LoopState) (line0 : List Char) : Except DoorstopError LoopState :=
  let line1 := inlineCodeSubs line0
  let p := if hasImage line1 then typesetLatexImage line1 s.block else (line1, s.block)
  let line2 := p.1
  let blockI := p.2
  let mm := splitDollars line2
  let mres : Except DoorstopError (Bool × List Char) :=
    if 1 < mm.length then
      if s.math_found = true ∧ mm.length = 2 then
        .ok (false, mm.getD 0 [] ++ '$' :: latex_convert (mm.getD 1 []))
      else if mm.length = 2 then
        .ok (true, latex_convert (mm.getD 0 []) ++ '$' :: mm.getD 1 [])
      else if mm.length = 3 then
        .ok (s.math_found,
             latex_convert (mm.getD 0 []) ++ '$' :: mm.getD 1 [] ++
               '$' :: latex_convert (mm.getD 2 []))
      else .error .multipleMathEnvironments
    else .ok (s.math_found, latex_convert line2)
  match mres with
  | .error e => .error e
  | .ok mf_line =>
    if mf_line.1 then
      .ok { s with math_found := true, block := blockI ++ [mf_line.2 ++ hardBreak] }
    else
      let next_line := if i + 1 = text.length then [] else text.getD (i + 1) []
      let r := process_lists mf_line.2 next_line
      let blockL := if r.2.1 ≠ [] then blockI ++ [r.2.1] else blockI
      let t :=
        if r.2.2.any (fun c => c == '|') then
          typeset_latex_table pub r.2.2 blockL s.table_found s.header_done s.end_pipes
        else
          (false, false, r.2.2, s.end_pipes,
           if s.table_found then blockL ++ [pub.END_LONGTABLE] else blockL)
      let line6 :=
        if i + 1 < text.length ∧ text.getD (i + 1) [] = [] ∧
            t.2.2.1.any (fun c => c == '\\') = false ∧ r.1 = false then
          t.2.2.1 ++ hardBreak
        else t.2.2.1
      .ok (check_for_eof pub text i
        { s with
            math_found := false, table_found := t.1, header_done := t.2.1
            end_pipes := t.2.2.2.1, block := t.2.2.2.2 ++ [line6] })

/-- The code-span section and everything after it (latex.py lines 452-593):
the spurious-fence skip, the fence toggle, the buffer-and-continue while a
code span is active, then the rest of the pipeline. -/
def codeAndRest (pub : LaTeXPublisher) (text : List (List Char)) (i : Nat)
    (s : LoopState) (line : List Char) : Except DoorstopError LoopState :=
  if containsSub tripleTick line then
    if 0 < i ∧ containsSub endumlPat (text.getD (i - 1) []) then .ok s
    else
      let q := codeToggle s line
      if q.1.code_found then
        .ok (check_for_eof pub text i { q.1 with block := q.1.block ++ [q.2] })
      else restPipeline pub text i q.1 q.2
  else
    if s.code_found then
      .ok (check_for_eof pub text i { s with block := s.block ++ [line] })
    else restPipeline pub text i s line

/-- One iteration of the `_format_latex_text` loop (latex.py lines
398-593) on line `i`: the plantuml-open stage, the `@enduml` stage, the
buffer-and-continue while a diagram is active, then the code span and the
rest of the pipeline. -/
def lineStep (pub : LaTeXPublisher) (text : List (List Char)) (i : Nat)
    (s : LoopState) : Except DoorstopError LoopState :=
  match plantumlOpenStage s (text.getD i []) with
  | .error e => .error e
  | .ok sl =>
    let q := endumlStage sl.1 sl.2
    if q.1.plantuml_found then
      .ok (check_for_eof pub text i { q.1 with block := q.1.block ++ [q.2] })
    else codeAndRest pub text i q.1 q.2

/-- The first `n` iterations of the `_format_latex_text` loop starting from
the fresh per-call state. -/
def loopRun (pub : LaTeXPublisher) (text : List (List Char)) :
    Nat → Except DoorstopError LoopState
  | 0 => .ok initState
  | n + 1 =>
    match loopRun pub text n with
    | .error e => .error e
    | .ok s => if n < text.length then lineStep pub text n s else .ok s

/-- `LaTeXPublisher._format_latex_text` (latex.py lines 383-594): run the
loop over every line of the text body and return the output block; a raised
`DoorstopError` propagates. -/
def format_latex_text (pub : LaTeXPublisher) (text : List (List Char)) :
    Except DoorstopError (List (List Char)) :=
  (loopRun pub text text.length).map (fun s => s.block)

/-- The method call `self._format_latex_text(text)` seen from the object:
the source assigns no attribute of `self` anywhere in `_format_latex_text`,
`_typeset_latex_table` or `_check_for_eof`, so the publisher after the call
is the publisher before it. -/
def formatLatexTextMethod (pub : LaTeXPublisher) (text : List (List Char)) :
    Except DoorstopError (List (List Char)) × LaTeXPublisher :=
  (format_latex_text pub text, pub)

/-- A sequence of `_format_latex_text` calls on one publisher object,
threading the object through the calls. -/
def formatCallSequence (pub : LaTeXPublisher) :
    List (List (List Char)) →
      List (Except DoorstopError (List (List Char))) × LaTeXPublisher
  | [] => ([], pub)
  | t :: ts =>
    let r := formatLatexTextMethod pub t
    let rest := formatCallSequence r.2 ts
    (r.1 :: rest.1, rest.2)

/-- The characters `clean_link` may emit: lowercase ASCII letters, digits
and the hyphen (the character class `[a-z0-9-]`, markdown.py line 372). -/
def isLinkChar (c : Char) : Bool :=
  decide ((97 ≤ c.toNat ∧ c.toNat ≤ 122) ∨ (48 ≤ c.toNat ∧ c.toNat ≤ 57) ∨ c.toNat = 45)

/-- Python `str.lower` on the ASCII range (markdown.py line 370). -/
def pyLower (c : Char) : Char :=
  if 65 ≤ c.toNat ∧ c.toNat ≤ 90 then Char.ofNat (c.toNat + 32) else c

/-- `clean_link` (markdown.py lines 361-373): strip leading hash marks and
whitespace, lowercase, replace spaces with hyphens, and remove every
character outside `[a-z0-9-]`. -/
def clean_link (uid : List Char) : List Char :=
  let u1 := (uid.dropWhile (fun c => c == '#')).dropWhile pySpace
  let u2 := u1.map pyLower
  let u3 := u2.map (fun c => if c == ' ' then '-' else c)
  u3.filter isLinkChar

instance {ε α : Type} [DecidableEq ε] [DecidableEq α] : DecidableEq (Except ε α) :=
  fun a b =>
    match a, b with
    | Except.error e, Except.error f => decidable_of_iff (e = f) (by simp)
    | Except.ok x, Except.ok y => decidable_of_iff (x = y) (by simp)
    | Except.error _, Except.ok _ => Decidable.isFalse (fun h => by cases h)
    | Except.ok _, Except.error _ => Decidable.isFalse (fun h => by cases h)

/-- The input of the C1 counterexample: a code fence, then a titled
diagram-opening line inside the open code span. -/
def c1Text : List (List Char) := ["```".data, "plantuml x title=\"T\"".data]

/-- The input of the C3 counterexample: a line with more than three
double-dollar segments buffered inside an open code span. -/
def c3Text : List (List Char) := ["```".data, "$$a$$ rest $$b$$".data]

/-- The input of the C4 counterexample: a table is opened, then the final
line opens a math span. -/
def c4Text : List (List Char) :=
  ["| A | B |".data, "| - | - |".data, "$$x".data]

/-- The input of the C6 counterexample: a line opens a math span, then a
code fence follows while math is open. -/
def c6Text : List (List Char) := ["$$x".data, "```".data]

/-- The input of the C7 counterexample: a table is opened, then a math
span opens and closes, then an ordinary line follows. -/
def c7Text : List (List Char) :=
  ["| A | B |".data, "| - | - |".data, "$$x".data, "$$y".data, "z".data]

/-- The input of the C8 counterexample: a complete diagram, then a
code-fence line that is itself a diagram-opening line right after the
`@enduml` line. -/
def c8Text : List (List Char) :=
  ["plantuml a title=\"A\"".data, "@enduml".data, "```plantuml b title=\"B\"".data]

/-- The input of the C5 counterexample: a table is open when the titled
diagram begins, and is still open at the diagram close. -/
def c5Text : List (List Char) :=
  ["| A | B |".data, "| - | - |".data, "plantuml x title=\"Foo Bar\"".data,
   "@enduml".data, "tail".data]

/-
Helper lemmas.
-/

theorem isPrefixOf_mem {p l : List Char} (h : p.isPrefixOf l = true) :
    ∀ a ∈ p, a ∈ l := by
  rw [List.isPrefixOf_iff_prefix] at h
  exact fun a ha => h.subset ha

theorem containsSub_eq_false {pat l : List Char} {a : Char}
    (ha : a ∈ pat) (hl : a ∉ l) : containsSub pat l = false := by
  induction l with
  | nil =>
    cases pat with
    | nil => simp at ha
    | cons p q => rfl
  | cons c t ih =>
    simp only [containsSub, Bool.or_eq_false_iff]
    constructor
    · cases hp : pat.isPrefixOf (c :: t) with
      | false => rfl
      | true => exact absurd (isPrefixOf_mem hp a ha) hl
    · exact ih (fun h => hl (List.mem_cons_of_mem c h))

theorem afterFirst_eq_none {pat l : List Char} {a : Char}
    (ha : a ∈ pat) (hl : a ∉ l) : afterFirst pat l = none := by
  induction l with
  | nil =>
    cases pat with
    | nil => simp at ha
    | cons p q => rfl
  | cons c t ih =>
    simp only [afterFirst]
    rw [if_neg]
    · exact ih (fun h => hl (List.mem_cons_of_mem c h))
    · intro hp
      exact hl (isPrefixOf_mem hp a ha)

theorem replaceSubFuel_eq_self {pat rep : List Char} {a : Char} (ha : a ∈ pat) :
    ∀ (fuel : Nat) (l : List Char), a ∉ l → replaceSubFuel pat rep fuel l = l := by
  intro fuel
  induction fuel with
  | zero => intro l _; cases l <;> rfl
  | succ f ih =>
    intro l hl
    cases l with
    | nil => rfl
    | cons c t =>
      simp only [replaceSubFuel]
      rw [if_neg]
      · rw [ih t (fun h => hl (List.mem_cons_of_mem c h))]
      · rintro ⟨-, hp⟩
        exact hl (isPrefixOf_mem hp a ha)

theorem replaceSub_eq_self {pat rep l : List Char} {a : Char}
    (ha : a ∈ pat) (hl : a ∉ l) : replaceSub pat rep l = l :=
  replaceSubFuel_eq_self ha l.length l hl

theorem subInlineFuel_eq_self :
    ∀ (fuel : Nat) (l : List Char), tick ∉ l → subInlineFuel fuel l = l := by
  intro fuel
  induction fuel with
  | zero => intro l _; cases l <;> rfl
  | succ f ih =>
    intro l hl
    cases l with
    | nil => rfl
    | cons c t =>
      simp only [subInlineFuel]
      rw [if_neg, ih t (fun h => hl (List.mem_cons_of_mem c h))]
      simp only [beq_iff_eq]
      intro h
      exact hl (h ▸ List.mem_cons_self c t)

theorem subInline_eq_self {l : List Char} (hl : tick ∉ l) : subInline l = l :=
  subInlineFuel_eq_self l.length l hl

theorem inlineCodeSubs_eq_self {l : List Char}
    (h1 : tick ∉ l) (h2 : '#' ∉ l) : inlineCodeSubs l = l := by
  unfold inlineCodeSubs
  rw [replaceSub_eq_self (a := tick) (by simp [escTickPat]) h1,
    subInline_eq_self h1,
    replaceSub_eq_self (a := '#') (by decide) h2]

theorem hasImage_eq_false {l : List Char} (h : '!' ∉ l) : hasImage l = false := by
  unfold hasImage
  rw [afterFirst_eq_none (a := '!') (by decide) h]

theorem splitDollarsFuel_eq_self :
    ∀ (fuel : Nat) (l : List Char), '$' ∉ l → splitDollarsFuel fuel l = [l] := by
  intro fuel
  induction fuel with
  | zero => intro l _; cases l <;> rfl
  | succ f ih =>
    intro l hl
    cases l with
    | nil => rfl
    | cons c t =>
      simp only [splitDollarsFuel]
      rw [if_neg, ih t (fun h => hl (List.mem_cons_of_mem c h))]
      · rfl
      · rintro ⟨rfl, -⟩
        exact hl (List.mem_cons_self _ t)

theorem splitDollars_eq_self {l : List Char} (hl : '$' ∉ l) :
    splitDollars l = [l] :=
  splitDollarsFuel_eq_self l.length l hl

theorem flatMap_escape_eq_self {l : List Char}
    (h1 : '_' ∉ l) (h2 : '^' ∉ l) : l.flatMap latexEscapeChar = l := by
  induction l with
  | nil => rfl
  | cons c t ih =>
    rw [List.flatMap_cons,
      ih (fun h => h1 (List.mem_cons_of_mem c h)) (fun h => h2 (List.mem_cons_of_mem c h))]
    have hc1 : ¬(c == '_') = true := by
      simp only [beq_iff_eq]
      intro h
      exact h1 (h ▸ List.mem_cons_self c t)
    have hc2 : ¬(c == '^') = true := by
      simp only [beq_iff_eq]
      intro h
      exact h2 (h ▸ List.mem_cons_self c t)
    simp [latexEscapeChar, hc1, hc2]

theorem latex_convert_eq_self {l : List Char}
    (h0 : ']' ∉ l) (h1 : '_' ∉ l) (h2 : '^' ∉ l) : latex_convert l = l := by
  unfold latex_convert
  rw [containsSub_eq_false (a := ']') (by decide) h0]
  exact flatMap_escape_eq_self h1 h2

theorem check_for_eof_table_found (pub : LaTeXPublisher) (text : List (List Char))
    (i : Nat) (s : LoopState) :
    (check_for_eof pub text i s).table_found = s.table_found := by
  unfold check_for_eof
  split <;> rfl

theorem check_for_eof_code_found (pub : LaTeXPublisher) (text : List (List Char))
    (i : Nat) (s : LoopState) :
    (check_for_eof pub text i s).code_found = s.code_found := by
  unfold check_for_eof
  split <;> rfl

theorem check_for_eof_plantuml_found (pub : LaTeXPublisher) (text : List (List Char))
    (i : Nat) (s : LoopState) :
    (check_for_eof pub text i s).plantuml_found = s.plantuml_found := by
  unfold check_for_eof
  split <;> rfl

theorem check_for_eof_math_found (pub : LaTeXPublisher) (text : List (List Char))
    (i : Nat) (s : LoopState) :
    (check_for_eof pub text i s).math_found = s.math_found := by
  unfold check_for_eof
  split <;> rfl

theorem check_for_eof_closed (pub : LaTeXPublisher) (text : List (List Char))
    (i : Nat) (s : LoopState) (h1 : s.code_found = false)
    (h2 : s.plantuml_found = false) (h3 : s.table_found = false) :
    check_for_eof pub text i s = s := by
  cases s with
  | mk bl tf hd cf mf pf file name cnt ep =>
    simp only at h1 h2 h3
    subst h1 h2 h3
    unfold check_for_eof
    split <;> simp

theorem check_for_eof_last_block (pub : LaTeXPublisher) (text : List (List Char))
    (i : Nat) (s : LoopState) (h : i + 1 = text.length) :
    (check_for_eof pub text i s).block =
      s.block ++ (if s.code_found then [endLstLine] else []) ++
        (if s.plantuml_found then
          [endPlantumlLine, processEofLine s.plantuml_file s.plantuml_name]
         else []) ++
        (if s.table_found then [pub.END_LONGTABLE] else []) := by
  unfold check_for_eof
  rw [if_pos h]
  cases hc : s.code_found <;> cases hp : s.plantuml_found <;>
    cases ht : s.table_found <;> simp

theorem digitChar_isDigit {m : Nat} (h : m < 10) :
    (Nat.digitChar m).isDigit = true := by
  interval_cases m <;> decide

theorem toDigitsCore_digits :
    ∀ (fuel n : Nat) (ds : List Char), (∀ c ∈ ds, c.isDigit = true) →
      ∀ c ∈ Nat.toDigitsCore 10 fuel n ds, c.isDigit = true := by
  intro fuel
  induction fuel with
  | zero => intro n ds h; simpa [Nat.toDigitsCore] using h
  | succ f ih =>
    intro n ds h c hc
    rw [Nat.toDigitsCore] at hc
    by_cases hz : n / 10 = 0
    · rw [if_pos hz] at hc
      rcases List.mem_cons.mp hc with rfl | hm
      · exact digitChar_isDigit (Nat.mod_lt n (by norm_num))
      · exact h c hm
    · rw [if_neg hz] at hc
      refine ih (n / 10) _ ?_ c hc
      intro d hd
      rcases List.mem_cons.mp hd with rfl | hm
      · exact digitChar_isDigit (Nat.mod_lt n (by norm_num))
      · exact h d hm

theorem repr_digits (n : Nat) : ∀ c ∈ (Nat.repr n).data, c.isDigit = true := by
  intro c hc
  refine toDigitsCore_digits (n + 1) n [] (by simp) c ?_
  simpa [Nat.repr, Nat.toDigits, List.asString] using hc

theorem ne_of_isDigit {c d : Char} (h : c.isDigit = true)
    (hd : d.isDigit = false) : c ≠ d := by
  intro hEq
  rw [hEq, hd] at h
  cases h

/-- The concrete front of the render directive for title `Foo Bar`:
everything before the counter digits. -/
def procFront : List Char :=
  "\\process".data ++ br "Foo-Bar".data ++ br ("0.8".data ++ "\\textwidth".data) ++
    br "Foo Bar".data ++ ['{']

theorem processLine_foobar (k : Nat) :
    processLine "Foo-Bar".data "Foo Bar".data k =
      procFront ++ (Nat.repr k).data ++ ['}'] := by
  simp [processLine, procFront, br, List.append_assoc]

theorem mem_processLine_foobar {k : Nat} {c : Char}
    (h : c ∈ processLine "Foo-Bar".data "Foo Bar".data k) :
    c ∈ procFront ∨ c.isDigit = true ∨ c = '}' := by
  rw [processLine_foobar] at h
  rcases List.mem_append.mp h with h1 | h2
  · rcases List.mem_append.mp h1 with ha | hb
    · exact Or.inl ha
    · exact Or.inr (Or.inl (repr_digits k c hb))
  · simp at h2
    exact Or.inr (Or.inr h2)

theorem processLine_foobar_facts (k : Nat) :
    tick ∉ processLine "Foo-Bar".data "Foo Bar".data k ∧
      '#' ∉ processLine "Foo-Bar".data "Foo Bar".data k ∧
      '!' ∉ processLine "Foo-Bar".data "Foo Bar".data k ∧
      '$' ∉ processLine "Foo-Bar".data "Foo Bar".data k ∧
      ']' ∉ processLine "Foo-Bar".data "Foo Bar".data k ∧
      '_' ∉ processLine "Foo-Bar".data "Foo Bar".data k ∧
      '^' ∉ processLine "Foo-Bar".data "Foo Bar".data k := by
  refine ⟨?_, ?_, ?_, ?_, ?_, ?_, ?_⟩ <;>
    (intro h
     rcases mem_processLine_foobar h with h | h | h
     · revert h
       have : ∀ c ∈ procFront, c ≠ tick ∧ c ≠ '#' ∧ c ≠ '!' ∧ c ≠ '$' ∧
           c ≠ ']' ∧ c ≠ '_' ∧ c ≠ '^' := by decide
       intro h
       rcases this _ h with ⟨u1, u2, u3, u4, u5, u6, u7⟩
       first
         | exact u1 rfl | exact u2 rfl | exact u3 rfl | exact u4 rfl
         | exact u5 rfl | exact u6 rfl | exact u7 rfl
     · exact absurd h (by decide)
     · exact absurd h (by decide))

theorem processLine_foobar_no_pipe (k : Nat) :
    (processLine "Foo-Bar".data "Foo Bar".data k).any (fun c => c == '|') = false := by
  rw [List.any_eq_false]
  intro c hc
  simp only [beq_iff_eq]
  rcases mem_processLine_foobar hc with h | h | h
  · have : ∀ c ∈ procFront, c ≠ '|' := by decide
    exact this c h
  · exact ne_of_isDigit h (by decide)
  · subst h; decide

theorem processLine_foobar_has_backslash (k : Nat) :
    (processLine "Foo-Bar".data "Foo Bar".data k).any (fun c => c == '\\') = true := by
  rw [List.any_eq_true]
  refine ⟨'\\', ?_, by decide⟩
  rw [processLine_foobar]
  exact List.mem_append.mpr (Or.inl (List.mem_append.mpr (Or.inl (by decide))))

theorem isListMarkerLine_cons_bs (r : List Char) :
    isListMarkerLine ('\\' :: r) = false := by
  simp only [isListMarkerLine]
  have hdw : List.dropWhile (fun c => c == ' ') ('\\' :: r) = '\\' :: r := by
    rw [List.dropWhile_cons]
    simp
  rw [hdw]
  simp [List.isPrefixOf]

theorem isListMarkerLine_processLine (k : Nat) :
    isListMarkerLine (processLine "Foo-Bar".data "Foo Bar".data k) = false := by
  rw [processLine_foobar]
  have h : procFront ++ (Nat.repr k).data ++ ['}'] =
      '\\' :: (procFront.tail ++ (Nat.repr k).data ++ ['}']) := by
    have : procFront = '\\' :: procFront.tail := by decide
    rw [this]
    simp
  rw [h, isListMarkerLine_cons_bs]

theorem linkChar_not_hash {c : Char} (h : isLinkChar c = true) : (c == '#') = false := by
  cases hq : c == '#'
  · rfl
  · rw [beq_iff_eq] at hq
    subst hq
    exact absurd h (by decide)

theorem linkChar_not_pySpace {c : Char} (h : isLinkChar c = true) : pySpace c = false := by
  cases hq : pySpace c
  · rfl
  · exfalso
    simp only [pySpace, Bool.or_eq_true, beq_iff_eq] at hq
    rcases hq with ((((rfl | rfl) | rfl) | rfl) | rfl) | rfl <;> revert h <;> decide

theorem linkChar_lower {c : Char} (h : isLinkChar c = true) : pyLower c = c := by
  unfold pyLower
  rw [if_neg]
  simp only [isLinkChar, decide_eq_true_eq] at h
  omega

theorem linkChar_not_space {c : Char} (h : isLinkChar c = true) : (c == ' ') = false := by
  cases hq : c == ' '
  · rfl
  · rw [beq_iff_eq] at hq
    subst hq
    exact absurd h (by decide)

theorem clean_link_fixed {l : List Char} (h : ∀ c ∈ l, isLinkChar c = true) :
    clean_link l = l := by
  simp only [clean_link]
  have h1 : l.dropWhile (fun c => c == '#') = l := by
    cases l with
    | nil => rfl
    | cons c r =>
      rw [List.dropWhile_cons, if_neg]
      simp [linkChar_not_hash (h c (List.mem_cons_self c r))]
  rw [h1]
  have h2 : l.dropWhile pySpace = l := by
    cases l with
    | nil => rfl
    | cons c r =>
      rw [List.dropWhile_cons, if_neg]
      simp [linkChar_not_pySpace (h c (List.mem_cons_self c r))]
  rw [h2]
  have h3 : l.map pyLower = l := by
    conv_rhs => rw [← List.map_id l]
    exact List.map_congr_left (fun c hc => linkChar_lower (h c hc))
  rw [h3]
  have h4 : l.map (fun c => if c == ' ' then '-' else c) = l := by
    conv_rhs => rw [← List.map_id l]
    refine List.map_congr_left (fun c hc => ?_)
    simp [linkChar_not_space (h c hc)]
  rw [h4]
  exact List.filter_eq_self.mpr h

/-- Claim C10: for every input string, the result of `clean_link` contains
only lowercase ASCII letters, digits and hyphens (no spaces, no leading
hash marks, no other characters), and `clean_link` applied to its own
output returns it unchanged (idempotence). -/
theorem clean_link_charset_and_idempotent (uid : List Char) :
    (clean_link uid).all isLinkChar = true ∧
      clean_link (clean_link uid) = clean_link uid := by
  have hall : ∀ c ∈ clean_link uid, isLinkChar c = true := by
    intro c hc
    simp only [clean_link] at hc
    exact List.of_mem_filter hc
  exact ⟨List.all_eq_true.mpr hall, clean_link_fixed hall⟩

/-- Claim C9: `_format_latex_text` is deterministic and stateless between
calls: threading the publisher object through any sequence of calls yields,
for every call, exactly the single-call result on that input (so two calls
on the same input agree regardless of earlier calls; the per-call state,
including the diagram counter started at zero in `initState`, never
carries over), and the publisher object is returned unchanged. -/
theorem format_latex_text_stateless_across_calls (pub : LaTeXPublisher)
    (texts : List (List (List Char))) :
    formatCallSequence pub texts =
      (texts.map (fun t => format_latex_text pub t), pub) := by
  induction texts with
  | nil => rfl
  | cons t ts ih => simp [formatCallSequence, formatLatexTextMethod, ih]

/-- Claim C1 counterexample: after processing `c1Text`, the flags
`code_found` and `plantuml_found` are both true — the diagram-opening check
is not suppressed while a code span is active, because it runs before the
code-span short circuit. -/
theorem code_and_diagram_flags_both_true :
    (loopRun LaTeXPublisher.init c1Text 2).map
        (fun s => (s.code_found, s.plantuml_found)) = .ok (true, true) := by
  decide

/-- Claim C3 counterexample: the line `$$a$$ rest $$b$$` splits into more
than three segments, yet `_format_latex_text` raises no error on `c3Text`
because the line is buffered verbatim inside the open code span. -/
theorem math_split_inside_code_block_no_error :
    3 < (splitDollars "$$a$$ rest $$b$$".data).length ∧
      format_latex_text LaTeXPublisher.init c3Text =
        .ok [beginLstLine, "$$a$$ rest $$b$$".data, endLstLine] := by
  decide

/-- Claim C4 counterexample: the final line of `c4Text` is consumed by the
math branch, which skips the end-of-stream check, so the still-open table
span is not force-closed: the table flag is still set and the output block
contains no end-of-table line. -/
theorem open_table_not_closed_after_math_final_line :
    (loopRun LaTeXPublisher.init c4Text 3).map
        (fun s => (s.table_found, s.math_found,
          decide (LaTeXPublisher.init.END_LONGTABLE ∈ s.block))) =
      .ok (true, true, false) := by
  decide

/-- Claim C6 counterexample: while the math state is open, the code-fence
line is handled by the code branch, so its output line (the second block
entry) does not end with the hard line-break marker. -/
theorem math_open_code_fence_no_hard_break :
    (loopRun LaTeXPublisher.init c6Text 1).map (fun s => s.math_found) = .ok true ∧
      format_latex_text LaTeXPublisher.init c6Text =
        .ok ["$x\\\\".data, beginLstLine, endLstLine] ∧
      hardBreak.isSuffixOf beginLstLine = false := by
  decide

/-- Claim C7 counterexample: the first subsequent line with no pipe
character is `$$x` (output index 3), yet the end-of-table line appears only
at index 4: the close is deferred past the math-handled line, because the
math branch bypasses the table stage. -/
theorem table_close_deferred_past_math_line :
    ("$$x".data.any (fun c => c == '|') = false) ∧
      format_latex_text LaTeXPublisher.init c7Text =
        .ok [beginLongtableLine 2, " A & B \\\\".data, "\\hline".data,
             "$x\\\\".data, LaTeXPublisher.init.END_LONGTABLE, "$y".data,
             "z".data] ∧
      LaTeXPublisher.init.END_LONGTABLE ∉
        [beginLongtableLine 2, " A & B \\\\".data, "\\hline".data, "$x\\\\".data] := by
  decide

/-- Claim C8 counterexample: the third line of `c8Text` contains a triple
backtick and the preceding line contains `@enduml`, yet the line is not
ignored: it opens a second diagram and contributes four lines to the
output block (the forward reference, the begin line, and the forced
end-of-stream close pair). -/
theorem fence_after_enduml_contributes_output :
    containsSub tripleTick ("```plantuml b title=\"B\"".data) = true ∧
      containsSub endumlPat ("@enduml".data) = true ∧
      format_latex_text LaTeXPublisher.init c8Text =
        .ok [hyperrefLine 1 "A".data, beginPlantumlLine "A".data,
             "@enduml".data, endPlantumlLine, processLine "A".data "A".data 1,
             hyperrefLine 2 "B".data, beginPlantumlLine "B".data,
             endPlantumlLine, processEofLine "B".data "B".data] := by
  decide

theorem lineStep_missing_title (pub : LaTeXPublisher) (text : List (List Char))
    (i : Nat) (s : LoopState) (line : List Char)
    (hL : text.getD i [] = line)
    (h1 : matchesPlantumlOpen line = true)
    (h2 : extractTitle line = none) :
    lineStep pub text i s = .error .missingPlantumlTitle := by
  simp only [lineStep]
  rw [hL]
  simp [plantumlOpenStage, h1, h2]

theorem loopRun_error_mono (pub : LaTeXPublisher) (text : List (List Char))
    (e : DoorstopError) :
    ∀ n m : Nat, m ≤ n → loopRun pub text m = .error e →
      loopRun pub text n = .error e := by
  intro n
  induction n with
  | zero =>
    intro m h he
    rw [Nat.le_zero.mp h] at he
    simp [loopRun] at he
  | succ k ih =>
    intro m h he
    rcases Nat.lt_or_ge m (k + 1) with hm | hm
    · have hk := ih m (by omega) he
      simp [loopRun, hk]
    · have : m = k + 1 := by omega
      subst this
      exact he

/-- Claim C2: for every input line sequence containing a diagram-opening
line (matching the plantuml opening marker) that lacks a `title="..."`
attribute, `_format_latex_text` raises the missing-title `DoorstopError` at
the point that line is processed (whenever processing reaches that line)
and returns no output block. -/
theorem plantuml_missing_title_raises (pub : LaTeXPublisher)
    (text : List (List Char)) (i : Nat) (s : LoopState)
    (hi : i < text.length)
    (h1 : matchesPlantumlOpen (text.getD i []) = true)
    (h2 : extractTitle (text.getD i []) = none)
    (hreach : loopRun pub text i = .ok s) :
    format_latex_text pub text = .error .missingPlantumlTitle := by
  have hstep : loopRun pub text (i + 1) = .error .missingPlantumlTitle := by
    simp [loopRun, hreach, hi,
      lineStep_missing_title pub text i s (text.getD i []) rfl h1 h2]
  have hall := loopRun_error_mono pub text _ text.length (i + 1) (by omega) hstep
  simp [format_latex_text, hall, Except.map]

/-- Witness for claim C2 at the concrete input `["plantuml x"]`. -/
theorem plantuml_missing_title_raises_witness :
    (0 < (["plantuml x".data] : List (List Char)).length) ∧
      matchesPlantumlOpen ((["plantuml x".data] : List (List Char)).getD 0 []) = true ∧
      extractTitle ((["plantuml x".data] : List (List Char)).getD 0 []) = none ∧
      format_latex_text LaTeXPublisher.init ["plantuml x".data] =
        .error .missingPlantumlTitle :=
  ⟨by decide, by decide, by decide,
   plantuml_missing_title_raises LaTeXPublisher.init ["plantuml x".data] 0 initState
     (by decide) (by decide) (by decide) rfl⟩

/-- Claim C1 (amended): while a diagram span is active, code-fence
detection is suppressed: a step that starts with `plantuml_found = true`
on a line that neither re-opens nor closes a diagram leaves `code_found`
unchanged, keeps the diagram open, and only buffers the line.  The reverse
direction fails: diagram detection is not suppressed while a code span is
active (the opening check runs before the code short circuit), so the two
flags can be simultaneously true (see the counterexample). -/
theorem diagram_active_suppresses_code_fence (pub : LaTeXPublisher)
    (text : List (List Char)) (i : Nat) (s : LoopState) (line : List Char)
    (hL : text.getD i [] = line)
    (hp : s.plantuml_found = true)
    (h1 : matchesPlantumlOpen line = false)
    (h2 : containsSub endumlPat line = false) :
    ∃ s', lineStep pub text i s = .ok s' ∧
      s'.code_found = s.code_found ∧ s'.plantuml_found = true ∧
      s'.block = (check_for_eof pub text i
        { s with block := s.block ++ [line] }).block := by
  refine ⟨check_for_eof pub text i { s with block := s.block ++ [line] },
    ?_, ?_, ?_, rfl⟩
  · simp only [lineStep]
    rw [hL]
    simp [plantumlOpenStage, endumlStage, h1, h2, hp]
  · rw [check_for_eof_code_found]
  · rw [check_for_eof_plantuml_found]
    exact hp

/-- Witness for the amended claim C1: a buffered line inside an open
diagram span. -/
theorem diagram_active_suppresses_code_fence_witness :
    ({ initState with plantuml_found := true } : LoopState).plantuml_found = true ∧
      matchesPlantumlOpen ("abc".data) = false ∧
      containsSub endumlPat ("abc".data) = false ∧
      (∃ s', lineStep LaTeXPublisher.init ["abc".data, "".data] 0
          { initState with plantuml_found := true } = .ok s' ∧
        s'.code_found = ({ initState with plantuml_found := true } : LoopState).code_found ∧
        s'.plantuml_found = true ∧
        s'.block = (check_for_eof LaTeXPublisher.init ["abc".data, "".data] 0
          { { initState with plantuml_found := true } with
              block := ({ initState with plantuml_found := true } : LoopState).block ++
                ["abc".data] }).block) :=
  ⟨rfl, by decide, by decide,
   diagram_active_suppresses_code_fence LaTeXPublisher.init ["abc".data, "".data] 0
     { initState with plantuml_found := true } ("abc".data) rfl rfl
     (by decide) (by decide)⟩

/-- Claim C8 (amended): a code-fence line whose immediately preceding line
contains `@enduml` is ignored — it toggles no state and contributes no
output line — provided no diagram span is active and the fence line is not
itself a diagram-opening line and does not itself contain `@enduml` (in
those cases the diagram stages consume it first; see the counterexample). -/
theorem spurious_fence_after_enduml_ignored (pub : LaTeXPublisher)
    (text : List (List Char)) (i : Nat) (s : LoopState)
    (line prev : List Char)
    (hL : text.getD i [] = line)
    (hP : text.getD (i - 1) [] = prev)
    (hi : 0 < i) (hp : s.plantuml_found = false)
    (hfence : containsSub tripleTick line = true)
    (h1 : matchesPlantumlOpen line = false)
    (h2 : containsSub endumlPat line = false)
    (hprev : containsSub endumlPat prev = true) :
    lineStep pub text i s = .ok s := by
  simp only [lineStep]
  rw [hL]
  simp only [plantumlOpenStage, h1, Bool.false_eq_true, if_false]
  simp only [endumlStage, h2, Bool.false_eq_true, if_false]
  simp only [hp, codeAndRest]
  rw [hP]
  simp [hfence, hi, hprev]

/-- Witness for the amended claim C8: a fence line right after a line
containing the diagram-closing marker. -/
theorem spurious_fence_after_enduml_ignored_witness :
    (0 < 1) ∧ (initState.plantuml_found = false) ∧
      containsSub tripleTick ("```".data) = true ∧
      matchesPlantumlOpen ("```".data) = false ∧
      containsSub endumlPat ("```".data) = false ∧
      containsSub endumlPat ("x @enduml".data) = true ∧
      lineStep LaTeXPublisher.init ["x @enduml".data, "```".data] 1 initState =
        .ok initState :=
  ⟨by decide, rfl, by decide, by decide, by decide, by decide,
   spurious_fence_after_enduml_ignored LaTeXPublisher.init
     ["x @enduml".data, "```".data] 1 initState ("```".data) ("x @enduml".data)
     rfl rfl (by decide) rfl (by decide) (by decide) (by decide) (by decide)⟩


theorem lineStep_to_rest (pub : LaTeXPublisher) (text : List (List Char))
    (i : Nat) (s : LoopState) (line : List Char)
    (hL : text.getD i [] = line)
    (hp : s.plantuml_found = false) (hc : s.code_found = false)
    (h1 : matchesPlantumlOpen line = false)
    (h2 : containsSub endumlPat line = false)
    (h3 : tick ∉ line) :
    lineStep pub text i s = restPipeline pub text i s line := by
  have ht : containsSub tripleTick line = false :=
    containsSub_eq_false (by simp [tripleTick]) h3
  simp only [lineStep]
  rw [hL]
  simp only [plantumlOpenStage, h1, Bool.false_eq_true, if_false]
  simp only [endumlStage, h2, Bool.false_eq_true, if_false]
  simp only [hp, Bool.false_eq_true, if_false, codeAndRest, ht, hc]

theorem restPipeline_math_open (pub : LaTeXPublisher) (text : List (List Char))
    (i : Nat) (s : LoopState) (line : List Char)
    (h3 : tick ∉ line) (h4 : '#' ∉ line) (h5 : '!' ∉ line)
    (hmf : s.math_found = false) (hlen : (splitDollars line).length = 2) :
    restPipeline pub text i s line = .ok { s with
      math_found := true
      block := s.block ++ [(latex_convert ((splitDollars line).getD 0 []) ++
        '$' :: (splitDollars line).getD 1 []) ++ hardBreak] } := by
  simp only [restPipeline, inlineCodeSubs_eq_self h3 h4, hasImage_eq_false h5,
    Bool.false_eq_true, if_false, hmf, hlen]
  simp

theorem restPipeline_math_cont (pub : LaTeXPublisher) (text : List (List Char))
    (i : Nat) (s : LoopState) (line : List Char)
    (h3 : tick ∉ line) (h4 : '#' ∉ line) (h5 : '!' ∉ line)
    (hmf : s.math_found = true) (hlen : (splitDollars line).length = 1) :
    restPipeline pub text i s line = .ok { s with
      math_found := true
      block := s.block ++ [latex_convert line ++ hardBreak] } := by
  simp only [restPipeline, inlineCodeSubs_eq_self h3 h4, hasImage_eq_false h5,
    Bool.false_eq_true, if_false, hmf, hlen]
  simp

theorem restPipeline_math_close (pub : LaTeXPublisher) (text : List (List Char))
    (i : Nat) (s : LoopState) (line : List Char)
    (h3 : tick ∉ line) (h4 : '#' ∉ line) (h5 : '!' ∉ line)
    (hmf : s.math_found = true) (hlen : (splitDollars line).length = 2) :
    ∃ s', restPipeline pub text i s line = .ok s' ∧ s'.math_found = false := by
  simp only [restPipeline, inlineCodeSubs_eq_self h3 h4, hasImage_eq_false h5,
    Bool.false_eq_true, if_false, hmf, hlen]
  simp
  rw [check_for_eof_math_found]

theorem restPipeline_math_error (pub : LaTeXPublisher) (text : List (List Char))
    (i : Nat) (s : LoopState) (line : List Char)
    (h3 : tick ∉ line) (h4 : '#' ∉ line) (h5 : '!' ∉ line)
    (hm : 3 < (splitDollars line).length) :
    restPipeline pub text i s line = .error .multipleMathEnvironments := by
  have e1 : 1 < (splitDollars line).length := by omega
  have e2 : ¬((splitDollars line).length = 2) := by omega
  have e3 : ¬((splitDollars line).length = 3) := by omega
  simp only [restPipeline, inlineCodeSubs_eq_self h3 h4, hasImage_eq_false h5,
    Bool.false_eq_true, if_false, e1, e2, e3]
  simp

theorem restPipeline_math_inline (pub : LaTeXPublisher) (text : List (List Char))
    (i : Nat) (s : LoopState) (line : List Char)
    (h3 : tick ∉ line) (h4 : '#' ∉ line) (h5 : '!' ∉ line)
    (hlen : (splitDollars line).length = 3) :
    ∃ s', restPipeline pub text i s line = .ok s' := by
  simp only [restPipeline, inlineCodeSubs_eq_self h3 h4, hasImage_eq_false h5,
    Bool.false_eq_true, if_false, hlen]
  cases hmf : s.math_found <;> simp [hmf]

/-- Claim C3 (amended): for every line processed through the math stage
(no active or opening diagram or code span, no backtick, hash or image
construct on the line), a split on the double-dollar delimiter into more
than three segments raises the multiple-math-environments `DoorstopError`,
while two or three segments are handled without error.  A line with more
than three segments that sits inside a code span raises nothing (see the
counterexample). -/
theorem multiple_math_segments_error_at_math_stage (pub : LaTeXPublisher)
    (text : List (List Char)) (i : Nat) (s : LoopState) (line : List Char)
    (hL : text.getD i [] = line)
    (hp : s.plantuml_found = false) (hc : s.code_found = false)
    (h1 : matchesPlantumlOpen line = false)
    (h2 : containsSub endumlPat line = false)
    (h3 : tick ∉ line) (h4 : '#' ∉ line) (h5 : '!' ∉ line) :
    (3 < (splitDollars line).length →
      lineStep pub text i s = .error .multipleMathEnvironments) ∧
    ((splitDollars line).length = 2 ∨ (splitDollars line).length = 3 →
      ∃ s', lineStep pub text i s = .ok s') := by
  constructor
  · intro hm
    rw [lineStep_to_rest pub text i s line hL hp hc h1 h2 h3]
    exact restPipeline_math_error pub text i s line h3 h4 h5 hm
  · intro hm
    rw [lineStep_to_rest pub text i s line hL hp hc h1 h2 h3]
    rcases hm with hm | hm
    · cases hmf : s.math_found
      · exact ⟨_, restPipeline_math_open pub text i s line h3 h4 h5 hmf hm⟩
      · obtain ⟨s', hs, -⟩ := restPipeline_math_close pub text i s line h3 h4 h5 hmf hm
        exact ⟨s', hs⟩
    · exact restPipeline_math_inline pub text i s line h3 h4 h5 hm

/-- Witness for the amended claim C3 at the line `$$a$$ b $$c$$` (five
segments). -/
theorem multiple_math_segments_error_at_math_stage_witness :
    (3 < (splitDollars "$$a$$ b $$c$$".data).length →
      lineStep LaTeXPublisher.init ["$$a$$ b $$c$$".data] 0 initState =
        .error .multipleMathEnvironments) ∧
    ((splitDollars "$$a$$ b $$c$$".data).length = 2 ∨
        (splitDollars "$$a$$ b $$c$$".data).length = 3 →
      ∃ s', lineStep LaTeXPublisher.init ["$$a$$ b $$c$$".data] 0 initState = .ok s') :=
  multiple_math_segments_error_at_math_stage LaTeXPublisher.init
    ["$$a$$ b $$c$$".data] 0 initState ("$$a$$ b $$c$$".data) rfl rfl rfl
    (by decide) (by decide) (by decide) (by decide) (by decide)

/-- Claim C6 (amended): for every line processed through the math stage
(no active or opening diagram or code span, no backtick, hash or image
construct on the line), a line with exactly one double-dollar split point
toggles the math-open state; while the state is open, every such line is
appended ending with the hard line-break marker and the list and table
stages are bypassed entirely (the whole remaining state is untouched).  A
code-fence or diagram line processed while math is open is not given a
hard break (see the counterexample). -/
theorem math_toggle_and_hard_break_at_math_stage (pub : LaTeXPublisher)
    (text : List (List Char)) (i : Nat) (s : LoopState) (line : List Char)
    (hL : text.getD i [] = line)
    (hp : s.plantuml_found = false) (hc : s.code_found = false)
    (h1 : matchesPlantumlOpen line = false)
    (h2 : containsSub endumlPat line = false)
    (h3 : tick ∉ line) (h4 : '#' ∉ line) (h5 : '!' ∉ line) :
    (s.math_found = false → (splitDollars line).length = 2 →
      lineStep pub text i s = .ok { s with
        math_found := true
        block := s.block ++ [(latex_convert ((splitDollars line).getD 0 []) ++
          '$' :: (splitDollars line).getD 1 []) ++ hardBreak] }) ∧
    (s.math_found = true → (splitDollars line).length = 1 →
      lineStep pub text i s = .ok { s with
        math_found := true
        block := s.block ++ [latex_convert line ++ hardBreak] }) ∧
    (s.math_found = true → (splitDollars line).length = 2 →
      ∃ s', lineStep pub text i s = .ok s' ∧ s'.math_found = false) := by
  refine ⟨fun hmf hlen => ?_, fun hmf hlen => ?_, fun hmf hlen => ?_⟩ <;>
    rw [lineStep_to_rest pub text i s line hL hp hc h1 h2 h3]
  · exact restPipeline_math_open pub text i s line h3 h4 h5 hmf hlen
  · exact restPipeline_math_cont pub text i s line h3 h4 h5 hmf hlen
  · exact restPipeline_math_close pub text i s line h3 h4 h5 hmf hlen

/-- Witness for the amended claim C6 at the line `$$x`. -/
theorem math_toggle_and_hard_break_at_math_stage_witness :
    (initState.math_found = false → (splitDollars "$$x".data).length = 2 →
      lineStep LaTeXPublisher.init ["$$x".data, "y".data] 0 initState =
        .ok { initState with
          math_found := true
          block := initState.block ++
            [(latex_convert ((splitDollars "$$x".data).getD 0 []) ++
              '$' :: (splitDollars "$$x".data).getD 1 []) ++ hardBreak] }) ∧
    (initState.math_found = true → (splitDollars "$$x".data).length = 1 →
      lineStep LaTeXPublisher.init ["$$x".data, "y".data] 0 initState =
        .ok { initState with
          math_found := true
          block := initState.block ++ [latex_convert "$$x".data ++ hardBreak] }) ∧
    (initState.math_found = true → (splitDollars "$$x".data).length = 2 →
      ∃ s', lineStep LaTeXPublisher.init ["$$x".data, "y".data] 0 initState = .ok s' ∧
        s'.math_found = false) :=
  math_toggle_and_hard_break_at_math_stage LaTeXPublisher.init
    ["$$x".data, "y".data] 0 initState ("$$x".data) rfl rfl rfl
    (by decide) (by decide) (by decide) (by decide) (by decide)

/-- Claim C4 (amended): on the last line, `_check_for_eof` appends exactly
the closes of the still-open code span (the end-verbatim line), diagram
span (the end-diagram line and a render directive) and table span (the
end-table line), in that order, and never closes a math span (its result
does not depend on and does not change `math_found`).  The diagram, code
and default pipeline branches invoke it on the final line, but a final
line consumed by the math branch skips it: even at end of stream with an
open table, only the math line itself is appended (see the
counterexample). -/
theorem eof_close_spans_except_math_branch :
    (∀ (pub : LaTeXPublisher) (text : List (List Char)) (i : Nat) (s : LoopState),
      i + 1 = text.length →
        (check_for_eof pub text i s).block =
          s.block ++ (if s.code_found then [endLstLine] else []) ++
            (if s.plantuml_found then
              [endPlantumlLine, processEofLine s.plantuml_file s.plantuml_name]
            else []) ++
            (if s.table_found then [pub.END_LONGTABLE] else []) ∧
        (check_for_eof pub text i s).math_found = s.math_found) ∧
    (∀ (pub : LaTeXPublisher) (text : List (List Char)) (i : Nat) (s : LoopState)
        (line : List Char),
      text.getD i [] = line → s.plantuml_found = false → s.code_found = false →
      matchesPlantumlOpen line = false → containsSub endumlPat line = false →
      tick ∉ line → '#' ∉ line → '!' ∉ line →
      s.math_found = false → (splitDollars line).length = 2 →
      i + 1 = text.length → s.table_found = true →
      lineStep pub text i s = .ok { s with
        math_found := true
        block := s.block ++ [(latex_convert ((splitDollars line).getD 0 []) ++
          '$' :: (splitDollars line).getD 1 []) ++ hardBreak] }) := by
  constructor
  · intro pub text i s h
    exact ⟨check_for_eof_last_block pub text i s h, check_for_eof_math_found pub text i s⟩
  · intro pub text i s line hL hp hc h1 h2 h3 h4 h5 hmf hlen _hlast _htf
    rw [lineStep_to_rest pub text i s line hL hp hc h1 h2 h3]
    exact restPipeline_math_open pub text i s line h3 h4 h5 hmf hlen

/-- Witness for the amended claim C4: the force close on a state with an
open code span, and the math-branch skip on the final line of `c4Text`. -/
theorem eof_close_spans_except_math_branch_witness :
    ((0 + 1 = (["a".data] : List (List Char)).length) ∧
      (check_for_eof LaTeXPublisher.init ["a".data] 0
          { initState with code_found := true }).block =
        ({ initState with code_found := true } : LoopState).block ++
          (if ({ initState with code_found := true } : LoopState).code_found then
            [endLstLine] else []) ++
          (if ({ initState with code_found := true } : LoopState).plantuml_found then
            [endPlantumlLine,
             processEofLine
               ({ initState with code_found := true } : LoopState).plantuml_file
               ({ initState with code_found := true } : LoopState).plantuml_name]
          else []) ++
          (if ({ initState with code_found := true } : LoopState).table_found then
            [LaTeXPublisher.init.END_LONGTABLE] else [])) ∧
      (check_for_eof LaTeXPublisher.init ["a".data] 0
          { initState with code_found := true }).math_found =
        ({ initState with code_found := true } : LoopState).math_found :=
  ⟨⟨by decide,
    (eof_close_spans_except_math_branch.1 LaTeXPublisher.init ["a".data] 0
      { initState with code_found := true } (by decide)).1⟩,
   (eof_close_spans_except_math_branch.1 LaTeXPublisher.init ["a".data] 0
      { initState with code_found := true } (by decide)).2⟩


theorem restPipeline_table_close (pub : LaTeXPublisher) (text : List (List Char))
    (i : Nat) (s : LoopState) (line : List Char)
    (h3 : tick ∉ line) (h4 : '#' ∉ line) (h5 : '!' ∉ line)
    (hmf : s.math_found = false)
    (hlen : (splitDollars line).length = 1)
    (hmark : isListMarkerLine (latex_convert line) = false)
    (hpipe : ((latex_convert line).any fun c => c == '|') = false)
    (htf : s.table_found = true)
    (hcf : s.code_found = false) (hpf : s.plantuml_found = false) :
    ∃ out, restPipeline pub text i s line =
      .ok { s with
        math_found := false
        table_found := false
        header_done := false
        block := (s.block ++ [pub.END_LONGTABLE]) ++ [out] } := by
  simp only [restPipeline, inlineCodeSubs_eq_self h3 h4, hasImage_eq_false h5,
    Bool.false_eq_true, if_false, hmf, hlen]
  simp only [Nat.lt_irrefl, if_false, Bool.false_eq_true]
  simp only [process_lists, hmark, Bool.false_eq_true, if_false]
  simp only [hpipe, Bool.false_eq_true, if_false, htf, if_true, ne_eq,
    not_true_eq_false]
  rw [check_for_eof_closed _ _ _ _ (by simp [hcf]) (by simp [hpf]) (by simp)]
  exact ⟨_, rfl⟩


theorem restPipeline_plain_line (pub : LaTeXPublisher) (text : List (List Char))
    (i : Nat) (s : LoopState) (line : List Char)
    (h3 : tick ∉ line) (h4 : '#' ∉ line) (h5 : '!' ∉ line)
    (h6 : '$' ∉ line) (h7 : ']' ∉ line) (h8 : '_' ∉ line) (h9 : '^' ∉ line)
    (hmf : s.math_found = false) (htf : s.table_found = false)
    (hmark : isListMarkerLine line = false)
    (hpipe : (line.any fun c => c == '|') = false)
    (hbs : (line.any fun c => c == '\\') = true)
    (hcf : s.code_found = false) (hpf : s.plantuml_found = false) :
    restPipeline pub text i s line = .ok { s with
      math_found := false
      table_found := false
      header_done := false
      block := s.block ++ [line] } := by
  have hconv : latex_convert line = line := latex_convert_eq_self h7 h8 h9
  have hsplit : splitDollars line = [line] := splitDollars_eq_self h6
  simp only [restPipeline, inlineCodeSubs_eq_self h3 h4, hasImage_eq_false h5,
    Bool.false_eq_true, if_false, hsplit, List.length_singleton, hconv, hmf]
  simp only [Nat.lt_irrefl, if_false, Bool.false_eq_true]
  simp only [process_lists, hmark, Bool.false_eq_true, if_false]
  simp only [hpipe, Bool.false_eq_true, if_false, htf, hbs, Bool.true_eq_false,
    and_false, false_and, if_false, ne_eq, not_true_eq_false]
  rw [check_for_eof_closed _ _ _ _ (by simp [hcf]) (by simp [hpf]) (by simp)]

/-- Claim C7 (amended): whenever a table span is open, the first subsequent
line without a pipe character that reaches the table stage (not a diagram,
code-fence or math-handled line) makes the step append the end-of-table
line to the block before that line's own output, resetting the table state
to outside; in particular, for the input
`["| A | B |", "| - | - |", "| 1 | 2 |", ""]` the single table-close line
is emitted upon encountering the blank line, not deferred past it.  A
pipe-free line consumed by the math branch does not close the table (see
the counterexample). -/
theorem table_closed_by_first_pipeless_line_at_table_stage :
    (∀ (pub : LaTeXPublisher) (text : List (List Char)) (i : Nat) (s : LoopState)
        (line : List Char),
      text.getD i [] = line → s.plantuml_found = false → s.code_found = false →
      s.math_found = false →
      matchesPlantumlOpen line = false → containsSub endumlPat line = false →
      tick ∉ line → '#' ∉ line → '!' ∉ line →
      (splitDollars line).length = 1 →
      isListMarkerLine (latex_convert line) = false →
      ((latex_convert line).any fun c => c == '|') = false →
      s.table_found = true →
      ∃ out, lineStep pub text i s = .ok { s with
        math_found := false
        table_found := false
        header_done := false
        block := (s.block ++ [pub.END_LONGTABLE]) ++ [out] }) ∧
    format_latex_text LaTeXPublisher.init
        ["| A | B |".data, "| - | - |".data, "| 1 | 2 |".data, []] =
      .ok [beginLongtableLine 2, " A & B \\\\".data, "\\hline".data,
           " 1 & 2 \\\\".data, LaTeXPublisher.init.END_LONGTABLE, []] := by
  constructor
  · intro pub text i s line hL hp hc hmf h1 h2 h3 h4 h5 hlen hmark hpipe htf
    rw [lineStep_to_rest pub text i s line hL hp hc h1 h2 h3]
    exact restPipeline_table_close pub text i s line h3 h4 h5 hmf hlen hmark
      hpipe htf hc hp
  · decide

/-- Witness for the amended claim C7: a pipe-free plain line closing an
open table span. -/
theorem table_closed_by_first_pipeless_line_witness :
    (splitDollars "x".data).length = 1 ∧
      isListMarkerLine (latex_convert "x".data) = false ∧
      ({ initState with table_found := true } : LoopState).table_found = true ∧
      (∃ out, lineStep LaTeXPublisher.init ["x".data] 0
          { initState with table_found := true } =
        .ok { { initState with table_found := true } with
          math_found := false
          table_found := false
          header_done := false
          block := (({ initState with table_found := true } : LoopState).block ++
            [LaTeXPublisher.init.END_LONGTABLE]) ++ [out] }) :=
  ⟨by decide, by decide, rfl,
   table_closed_by_first_pipeless_line_at_table_stage.1 LaTeXPublisher.init
     ["x".data] 0 { initState with table_found := true } ("x".data) rfl rfl rfl
     rfl (by decide) (by decide) (by decide) (by decide) (by decide) (by decide)
     (by decide) (by decide) rfl⟩

/-- Claim C5 (amended): a diagram opened by a line with `title="Foo Bar"`
is assigned the next counter value N = previous count + 1, and the step
emits exactly one forward-reference hyperlink line referencing N
immediately before the begin-diagram-environment line.  At the closing
marker, with no code, table or math span open and the header state clear,
the step emits the closing line, then exactly one end-environment line
immediately followed by exactly one render-directive line referencing the
counter and the slug `Foo-Bar` (the title with whitespace replaced by
hyphens).  With a table span still open at the close, the end-of-table
line is interposed between the end-environment line and the render
directive (latex.py lines 569-570), so the adjacency fails there (see the
counterexample). -/
theorem diagram_title_foo_bar_numbering_and_slug :
    (∀ (pub : LaTeXPublisher) (text : List (List Char)) (i : Nat) (s : LoopState)
        (line : List Char),
      text.getD i [] = line →
      matchesPlantumlOpen line = true →
      extractTitle line = some ("Foo Bar".data) →
      i + 1 ≠ text.length →
      lineStep pub text i s = .ok { s with
        plantuml_count := s.plantuml_count + 1
        plantuml_name := "Foo Bar".data
        plantuml_file := "Foo-Bar".data
        plantuml_found := true
        block := (s.block ++ [hyperrefLine (s.plantuml_count + 1) "Foo Bar".data]) ++
          [beginPlantumlLine "Foo-Bar".data] }) ∧
    (∀ (pub : LaTeXPublisher) (text : List (List Char)) (i : Nat) (s : LoopState)
        (line : List Char),
      text.getD i [] = line →
      s.plantuml_found = true → s.math_found = false →
      s.table_found = false → s.code_found = false → s.header_done = false →
      s.plantuml_name = "Foo Bar".data → s.plantuml_file = "Foo-Bar".data →
      matchesPlantumlOpen line = false →
      containsSub endumlPat line = true →
      lineStep pub text i s = .ok { s with
        plantuml_found := false
        block := (s.block ++ [line, endPlantumlLine]) ++
          [processLine "Foo-Bar".data "Foo Bar".data s.plantuml_count] }) ∧
    (∀ (pub : LaTeXPublisher) (text : List (List Char)) (i : Nat) (s : LoopState)
        (line : List Char),
      text.getD i [] = line →
      s.plantuml_found = true → s.math_found = false →
      s.table_found = true → s.code_found = false →
      s.plantuml_name = "Foo Bar".data → s.plantuml_file = "Foo-Bar".data →
      matchesPlantumlOpen line = false →
      containsSub endumlPat line = true →
      lineStep pub text i s = .ok { s with
        plantuml_found := false
        table_found := false
        header_done := false
        block := ((s.block ++ [line, endPlantumlLine]) ++ [pub.END_LONGTABLE]) ++
          [processLine "Foo-Bar".data "Foo Bar".data s.plantuml_count] }) := by
  refine ⟨?_, ?_, ?_⟩
  · intro pub text i s line hL hopen htitle hlast
    have hs : slugify "Foo Bar".data = "Foo-Bar".data := by decide
    have he : containsSub endumlPat (beginPlantumlLine "Foo-Bar".data) = false := by
      decide
    simp only [lineStep]
    rw [hL]
    simp only [plantumlOpenStage, hopen, htitle, if_true, hs]
    simp only [endumlStage, he, Bool.false_eq_true, if_false]
    simp only [if_true]
    simp [check_for_eof, hlast]
  · intro pub text i s line hL hp hmf htf hcf hhd hname hfile h1 h2
    obtain ⟨bl, tf, hd, cf, mf, pf, pfile, pname, cnt, ep⟩ := s
    simp only at hp hmf htf hcf hhd hname hfile
    subst hp hmf htf hcf hhd hname hfile
    obtain ⟨f1, f2, f3, f4, f5, f6, f7⟩ := processLine_foobar_facts cnt
    have hct : containsSub tripleTick
        (processLine "Foo-Bar".data "Foo Bar".data cnt) = false :=
      containsSub_eq_false (by simp [tripleTick]) f1
    have hnp := processLine_foobar_no_pipe cnt
    have hbs := processLine_foobar_has_backslash cnt
    have hml := isListMarkerLine_processLine cnt
    have hconv : latex_convert (processLine "Foo-Bar".data "Foo Bar".data cnt) =
        processLine "Foo-Bar".data "Foo Bar".data cnt :=
      latex_convert_eq_self f5 f6 f7
    have hsplit : splitDollars (processLine "Foo-Bar".data "Foo Bar".data cnt) =
        [processLine "Foo-Bar".data "Foo Bar".data cnt] :=
      splitDollars_eq_self f4
    simp only [lineStep]
    rw [hL]
    simp only [plantumlOpenStage, h1, Bool.false_eq_true, if_false]
    simp only [endumlStage, h2, if_true]
    simp only [codeAndRest, hct, Bool.false_eq_true, if_false]
    simp only [restPipeline,
      inlineCodeSubs_eq_self f1 f2, hasImage_eq_false f3,
      Bool.false_eq_true, if_false, hsplit, List.length_singleton, hconv]
    simp only [Nat.lt_irrefl, if_false, Bool.false_eq_true]
    simp only [process_lists, hml, Bool.false_eq_true, if_false]
    simp only [hnp, Bool.false_eq_true, if_false, hbs, Bool.true_eq_false,
      and_false, false_and, ne_eq, not_true_eq_false]
    rw [check_for_eof_closed _ _ _ _ (by simp) (by simp) (by simp)]
  · intro pub text i s line hL hp hmf htf hcf hname hfile h1 h2
    obtain ⟨bl, tf, hd, cf, mf, pf, pfile, pname, cnt, ep⟩ := s
    simp only at hp hmf htf hcf hname hfile
    subst hp hmf htf hcf hname hfile
    obtain ⟨f1, f2, f3, f4, f5, f6, f7⟩ := processLine_foobar_facts cnt
    have hct : containsSub tripleTick
        (processLine "Foo-Bar".data "Foo Bar".data cnt) = false :=
      containsSub_eq_false (by simp [tripleTick]) f1
    have hnp := processLine_foobar_no_pipe cnt
    have hbs := processLine_foobar_has_backslash cnt
    have hml := isListMarkerLine_processLine cnt
    have hconv : latex_convert (processLine "Foo-Bar".data "Foo Bar".data cnt) =
        processLine "Foo-Bar".data "Foo Bar".data cnt :=
      latex_convert_eq_self f5 f6 f7
    have hsplit : splitDollars (processLine "Foo-Bar".data "Foo Bar".data cnt) =
        [processLine "Foo-Bar".data "Foo Bar".data cnt] :=
      splitDollars_eq_self f4
    simp only [lineStep]
    rw [hL]
    simp only [plantumlOpenStage, h1, Bool.false_eq_true, if_false]
    simp only [endumlStage, h2, if_true]
    simp only [codeAndRest, hct, Bool.false_eq_true, if_false]
    simp only [restPipeline,
      inlineCodeSubs_eq_self f1 f2, hasImage_eq_false f3,
      Bool.false_eq_true, if_false, hsplit, List.length_singleton, hconv]
    simp only [Nat.lt_irrefl, if_false, Bool.false_eq_true]
    simp only [process_lists, hml, Bool.false_eq_true, if_false]
    simp only [hnp, Bool.false_eq_true, if_false, if_true, hbs, Bool.true_eq_false,
      and_false, false_and, ne_eq, not_true_eq_false]
    rw [check_for_eof_closed _ _ _ _ (by simp) (by simp) (by simp)]

/-- Claim C5 counterexample: on `c5Text` the table opened before the
diagram is still open at the `@enduml` line, so the output interposes the
end-of-table line (index 7) between the end-diagram line (index 6) and the
render directive (index 8): the end-environment line is not followed by
the render-directive line, refuting the claimed adjacency on this
sequence. -/
theorem diagram_close_render_separated_by_table_close :
    format_latex_text LaTeXPublisher.init c5Text =
      .ok [beginLongtableLine 2, " A & B \\\\".data, "\\hline".data,
           hyperrefLine 1 "Foo Bar".data, beginPlantumlLine "Foo-Bar".data,
           "@enduml".data, endPlantumlLine, LaTeXPublisher.init.END_LONGTABLE,
           processLine "Foo-Bar".data "Foo Bar".data 1, "tail".data] ∧
      endPlantumlLine ≠ LaTeXPublisher.init.END_LONGTABLE ∧
      LaTeXPublisher.init.END_LONGTABLE ≠
        processLine "Foo-Bar".data "Foo Bar".data 1 := by
  decide

/-- Witness for the amended claim C5: the diagram-opening line with
`title="Foo Bar"` of a two-line document. -/
theorem diagram_title_foo_bar_numbering_and_slug_witness :
    matchesPlantumlOpen ("plantuml fmt title=\"Foo Bar\"".data) = true ∧
      extractTitle ("plantuml fmt title=\"Foo Bar\"".data) = some ("Foo Bar".data) ∧
      (0 + 1 ≠ (["plantuml fmt title=\"Foo Bar\"".data, "@enduml".data] :
        List (List Char)).length) ∧
      lineStep LaTeXPublisher.init
          ["plantuml fmt title=\"Foo Bar\"".data, "@enduml".data] 0 initState =
        .ok { initState with
          plantuml_count := initState.plantuml_count + 1
          plantuml_name := "Foo Bar".data
          plantuml_file := "Foo-Bar".data
          plantuml_found := true
          block := (initState.block ++
            [hyperrefLine (initState.plantuml_count + 1) "Foo Bar".data]) ++
            [beginPlantumlLine "Foo-Bar".data] } :=
  ⟨by decide, by decide, by decide,
   diagram_title_foo_bar_numbering_and_slug.1 LaTeXPublisher.init
     ["plantuml fmt title=\"Foo Bar\"".data, "@enduml".data] 0 initState
     ("plantuml fmt title=\"Foo Bar\"".data) rfl (by decide) (by decide)
     (by decide)⟩
